import Mathlib

/-
Verification development for the wwwterm-es6 in-browser shell.

The shell session (`Shell` in the source) is embedded as a pure state
machine: the DOM, the jQuery prompt elements and the real clock are
replaced by an explicit output trace and a pure state record.  JavaScript
strings are modelled by Lean `String` (a list of characters), JavaScript
string helpers (`split`, `trim`, `indexOf`, `slice`, `join`) are
re-implemented below with JavaScript semantics (in particular
`''.split(' ') = ['']`).  File objects are modelled as a tree; an object
reference into the tree is modelled as the list of child indices from the
root, so the `parentRef` back-pointer of a node at path `p` is `p.dropLast`.
A thrown JavaScript `TypeError` (for example calling a method on
`null`/`undefined`) is modelled by `Except.error`.
-/

namespace WTerm

/-- Head-position prefix test on character lists (`lStarts pat s` holds when
`s` begins with `pat`). -/
def lStarts : List Char → List Char → Bool
  | [], _ => true
  | _ :: _, [] => false
  | p :: ps, c :: cs => p == c && lStarts ps cs

/-- Split a character list at the first occurrence of a pattern, returning the
characters strictly before it and the characters strictly after it.  This
models JavaScript `indexOf` together with the two `slice` calls used around
it; `none` models `indexOf` returning `-1`. -/
def splitAtSub (pat : List Char) : List Char → Option (List Char × List Char)
  | [] => if pat.isEmpty then some ([], []) else none
  | c :: cs =>
    if lStarts pat (c :: cs) then some ([], (c :: cs).drop pat.length)
    else
      match splitAtSub pat cs with
      | none => none
      | some (a, b) => some (c :: a, b)

/-- JavaScript `String.prototype.includes` (for the nonempty patterns used by
the shell). -/
def includesStr (s pat : String) : Bool := (splitAtSub pat.data s.data).isSome

/-- The characters before the first occurrence of the pattern:
`input.slice(0, input.indexOf(pat))`. -/
def beforeFirst (s pat : String) : String :=
  match splitAtSub pat.data s.data with
  | some (a, _) => ⟨a⟩
  | none => s

/-- The characters after the first occurrence of the pattern:
`input.slice(input.indexOf(pat) + pat.length)`. -/
def afterFirst (s pat : String) : String :=
  match splitAtSub pat.data s.data with
  | some (_, b) => ⟨b⟩
  | none => ""

/-- JavaScript `String.prototype.split` on a one-character separator, on
character lists.  Note `split` never returns an empty array: splitting the
empty string yields `[""]`. -/
def splitChar (sep : Char) : List Char → List (List Char)
  | [] => [[]]
  | c :: cs =>
    match splitChar sep cs with
    | [] => [[]]
    | g :: gs => if c == sep then [] :: g :: gs else (c :: g) :: gs

/-- JavaScript `s.split(sep)` for a one-character separator. -/
def jsSplit (s : String) (sep : Char) : List String :=
  (splitChar sep s.data).map (fun l => ⟨l⟩)

/-- ASCII whitespace, as trimmed by JavaScript `trim` on the inputs in scope. -/
def isSpaceChar (c : Char) : Bool := c == ' ' || c == '\t' || c == '\n' || c == '\r'

/-- JavaScript `String.prototype.trim`. -/
def jsTrim (s : String) : String :=
  ⟨((s.data.dropWhile isSpaceChar).reverse.dropWhile isSpaceChar).reverse⟩

/-- JavaScript `Array.prototype.join`. -/
def strJoin (sep : String) : List String → String
  | [] => ""
  | [x] => x
  | x :: xs => x ++ sep ++ strJoin sep xs

/-- JavaScript string length (UTF-16 units; ASCII here). -/
def strLen (s : String) : Nat := s.data.length

/-- JavaScript `s.slice(n)`. -/
def strDrop (s : String) (n : Nat) : String := ⟨s.data.drop n⟩

/-- JavaScript `s.slice(0, n)` for `0 ≤ n ≤ s.length`. -/
def strTake (s : String) (n : Nat) : String := ⟨s.data.take n⟩

/-- JavaScript `s.slice(0, s.length - 1)`. -/
def dropLastChar (s : String) : String := ⟨s.data.dropLast⟩

/-- Modelled from the spec: a node of the virtual filesystem (the `TxtFile`
and `DirFile` classes of the `fileobject` module, which is not part of the
sources in scope).  Per the spec data model, a `Directory` carries an ordered
child list and a `TextFile` carries a list of content lines; `filetype` is the
string `"dir"` or `"txt"`.  Both variants are represented uniformly (a text
file simply has no children; JavaScript objects accept a `contents` property
on either class).  The `lastModified` timestamp is omitted: no operation in
scope observes it. -/
inductive FSNode where
  | node (name : String) (ftype : String) (contents : List String) (children : List FSNode)

def FSNode.name : FSNode → String
  | .node n _ _ _ => n

def FSNode.ftype : FSNode → String
  | .node _ t _ _ => t

def FSNode.contents : FSNode → List String
  | .node _ _ c _ => c

def FSNode.children : FSNode → List FSNode
  | .node _ _ _ cs => cs

/-- A reference to a file object, as the list of child indices from the
filesystem root.  The `parentRef` of the node at `p` is `p.dropLast`; for the
root this gives the root itself, which is the spec's chosen reading of the
root's `..` (spec §9: "this spec defines it as resolving to root itself";
the `fileobject` module that would decide it is not among the sources). -/
abbrev FRef := List Nat

/-- Look up the node a reference points at. -/
def getNode : FSNode → FRef → Option FSNode
  | t, [] => some t
  | t, i :: p =>
    match t.children.get? i with
    | none => none
    | some c => getNode c p

/-- Apply a function to the node a reference points at, leaving the rest of
the tree unchanged (the pure-state image of mutating through a reference). -/
def updateAt (f : FSNode → FSNode) : FSNode → FRef → FSNode
  | t, [] => f t
  | t, i :: p =>
    match t.children.get? i with
    | none => t
    | some c => FSNode.node t.name t.ftype t.contents (t.children.set i (updateAt f c p))

/-- The index the `dir.children.forEach` loop of `Shell.findFile` leaves in
`found`: the last child matching the name and the optional type filter
(`!typeToFind || typeToFind === child.filetype`). -/
def lastMatchIdx (nm : String) (flt : Option String) (cs : List FSNode) : Option Nat :=
  (List.range cs.length).foldl
    (fun acc i =>
      match cs.get? i with
      | some c => if c.name = nm ∧ (flt = none ∨ flt = some c.ftype) then some i else acc
      | none => acc)
    none

/-- `Shell.findFile`, translated from the source.  `cur` plays the role of
the `dir` argument (a reference), `fty` the optional `filetype` argument. -/
def findFile (t : FSNode) (cur : FRef) (fp : List String) (fty : Option String) : Option FRef :=
  if (fp.length = 0 ∨ (fp.length = 1 ∧ fp.headD "x" = "")) ∧ fty = some "dir" then some cur
  else
    match fp with
    | [] => none
    | seg :: rest =>
      let typeToFind : Option String := if rest = [] then fty else some "dir"
      let found : Option FRef :=
        if seg = "." then some cur
        else if seg = ".." then some cur.dropLast
        else if seg = "~" then some []
        else
          match getNode t cur with
          | none => none
          | some d => (lastMatchIdx seg typeToFind d.children).map (fun i => cur ++ [i])
      if rest = [] then found
      else
        match found with
        | none => none
        | some p => findFile t p rest fty

/-- One resolution hop as claim C1 words it: `.` maps to the current
directory, `..` to its parent, `~` to the root, and any other segment to the
child of exact matching name, filtered by `flt` when one is supplied. -/
def claimStep (t : FSNode) (cur : FRef) (seg : String) (flt : Option String) : Option FRef :=
  if seg = "." then some cur
  else if seg = ".." then some cur.dropLast
  else if seg = "~" then some []
  else
    match getNode t cur with
    | none => none
    | some d => (lastMatchIdx seg flt d.children).map (fun i => cur ++ [i])

/-- Path resolution exactly as claim C1 states it: the `requiredType` filter
is applied only on the final segment, every intermediate segment must resolve
to a directory, and resolution fails (`none`) as soon as a hop fails. -/
def resolveClaim (t : FSNode) (cur : FRef) (fp : List String) (rty : Option String) : Option FRef :=
  match fp with
  | [] => none
  | [seg] => claimStep t cur seg rty
  | seg :: rest =>
    match claimStep t cur seg (some "dir") with
    | none => none
    | some p => resolveClaim t p rest rty

/-- Claim C1's resolver amended by the one clause the code adds: a final
empty segment together with `requiredType = "dir"` resolves to the current
directory itself (the trailing-slash / no-path case). -/
def resolveAmended (t : FSNode) (cur : FRef) (fp : List String) (rty : Option String) : Option FRef :=
  match fp with
  | [] => none
  | [seg] => if seg = "" ∧ rty = some "dir" then some cur else claimStep t cur seg rty
  | seg :: rest =>
    match claimStep t cur seg (some "dir") with
    | none => none
    | some p => resolveAmended t p rest rty

/-- A JavaScript fault escaping the shell's code, or exhaustion of the fuel
that bounds the interpreter's recursion through nested redirects. -/
inductive JsErr where
  | typeErr
  | outOfFuel
deriving DecidableEq

/-- Modelled from the spec: the `ShellCommandResult` record of the
`shell-command` module (not among the sources): stdout lines, stderr lines
and an optional reference to a file for callers that need one. -/
structure ShellCommandResult where
  stdOut : List String
  stdErr : List String
  data : Option FRef
deriving DecidableEq

/-- An entry printed to the display surface: a full line (`print`) or an
inline candidate list (`printInline`). -/
inductive OutEvent where
  | line (s : String)
  | inline (opts : List String)
deriving DecidableEq

/-- The shell session state (the fields of the `Shell` class, with the jQuery
elements replaced by the `output` trace). -/
structure ShellState where
  fileStructure : FSNode
  currentDir : FRef
  user : String
  inputString : String
  bashHistory : List String
  historyIndex : Nat
  tabPressed : Bool
  output : List OutEvent
  childProcess : Option (List String × Option FRef)

/-- An empty root directory (spec: the root has an empty name segment). -/
def emptyFS : FSNode := .node "" "dir" [] []

/-- A freshly constructed shell over an empty filesystem. -/
def initShell : ShellState :=
  { fileStructure := emptyFS, currentDir := [], user := "guest", inputString := ""
    bashHistory := [], historyIndex := 0, tabPressed := false, output := []
    childProcess := none }

/-- Modelled from the spec: a node's `fullPath` is its parent's path, a
slash, and its name, with the root contributing the empty segment (spec §3).
The source stores this string on each node at creation; here it is computed
from the reference, which agrees with the stored value. -/
def fullPathAt (t : FSNode) : FRef → String
  | [] => ""
  | i :: p =>
    match t.children.get? i with
    | none => ""
    | some c => "/" ++ c.name ++ fullPathAt c p

/-- `Shell.getPS1String`. -/
def getPS1String (s : ShellState) : String :=
  "<span class=\"user\">" ++ s.user ++ "@www.carlegbert.com:</span>" ++
    "<span class=\"path\">" ++ fullPathAt s.fileStructure s.currentDir ++ "</span>$&nbsp;"

/-- Modelled from the spec: the `ShellCommand` parse record of the
`shell-command` module (not among the sources): the first non-empty
space-separated token is the command name, the remaining non-empty tokens are
the arguments (spec §4.2). -/
structure ShellCommand where
  command : String
  args : List String

/-- Modelled from the spec: tokenization of an input line into a
`ShellCommand` (spec §4.2). -/
def parseShellCommand (input : String) : ShellCommand :=
  let toks := (jsSplit input ' ').filter (fun x => x ≠ "")
  { command := toks.headD "", args := toks.tail }

/-- `Shell.validCommands`. -/
def validCommands : List String :=
  ["clear", "pwd", "whoami", "cd", "ls", "cat", "touch", "mkdir", "echo", "vi"]

/-- `Shell.getValidTypes`. -/
def getValidTypes (cmdName : String) : List String :=
  if cmdName = "ls" ∨ cmdName = "cd" ∨ cmdName = "mkdir" then ["dir"]
  else if cmdName = "whoami" ∨ cmdName = "pwd" ∨ cmdName = "clear" then []
  else if cmdName = "cat" ∨ cmdName = ">" ∨ cmdName = "vi" then ["txt"]
  else ["dir", "txt"]

/-- An empty `ShellCommandResult`. -/
def emptyRes : ShellCommandResult := { stdOut := [], stdErr := [], data := none }

/-- `Shell.newFile`, translated from the source: resolve all but the last
segment as a directory (the current directory for a single-segment path),
report `Directory not found` on failure, otherwise append a fresh node of the
requested type to that directory's children and return a reference to it. -/
def newFile (s : ShellState) (fp : List String) (fty : String) : ShellCommandResult × ShellState :=
  let dirOpt : Option FRef :=
    if fp.length = 1 then some s.currentDir
    else findFile s.fileStructure s.currentDir fp.dropLast (some "dir")
  match dirOpt with
  | none => ({ stdOut := [], stdErr := [strJoin "/" fp.dropLast ++ ": Directory not found"], data := none }, s)
  | some dp =>
    let filename := fp.getLastD ""
    let dnode := (getNode s.fileStructure dp).getD emptyFS
    let idx := dnode.children.length
    let child := FSNode.node filename fty [] []
    let t :=
      updateAt (fun d => FSNode.node d.name d.ftype d.contents (d.children ++ [child]))
        s.fileStructure dp
    ({ stdOut := [], stdErr := [], data := some (dp ++ [idx]) }, { s with fileStructure := t })

/-- `Shell.clear`: empties the display surface. -/
def clear (s : ShellState) : ShellCommandResult × ShellState :=
  (emptyRes, { s with output := [] })

/-- `Shell.pwd`. -/
def pwd (s : ShellState) : ShellCommandResult × ShellState :=
  ({ emptyRes with stdOut := [fullPathAt s.fileStructure s.currentDir] }, s)

/-- `Shell.whoami`. -/
def whoami (s : ShellState) : ShellCommandResult × ShellState :=
  ({ emptyRes with stdOut := [s.user] }, s)

/-- `Shell.cd`, translated from the source. -/
def cd (s : ShellState) (args : List String) : ShellCommandResult × ShellState :=
  let dirOpt : Option FRef :=
    if args = [] then some []
    else findFile s.fileStructure s.currentDir (jsSplit (args.headD "") '/') (some "dir")
  match dirOpt with
  | some p => (emptyRes, { s with currentDir := p })
  | none => ({ emptyRes with stdErr := [args.headD "" ++ ": directory not found"] }, s)

/-- `Shell.lsHelper`. -/
def lsHelper (d : FSNode) : String :=
  "<div>" ++
    strJoin "" (d.children.map
      (fun c => "<li class=\"inline " ++ c.ftype ++ "\">" ++ c.name ++ "</li>")) ++
    "</div>"

/-- One iteration of the `forEach` loop of `Shell.ls`. -/
def lsArg (s : ShellState) (multi : Bool) (acc : ShellCommandResult) (arg : String) :
    ShellCommandResult :=
  match findFile s.fileStructure s.currentDir (jsSplit arg '/') (some "dir") with
  | none =>
    { acc with stdErr := acc.stdErr ++ ["ls: cannot access " ++ arg ++ ": no such file or directory"] }
  | some p =>
    let d := (getNode s.fileStructure p).getD emptyFS
    { acc with stdOut := acc.stdOut ++ [(if multi then arg ++ ":" else "") ++ lsHelper d] }

/-- `Shell.ls`, translated from the source. -/
def ls (s : ShellState) (args : List String) : ShellCommandResult × ShellState :=
  if args = [] then
    ({ emptyRes with stdOut := [lsHelper ((getNode s.fileStructure s.currentDir).getD emptyFS)] }, s)
  else (args.foldl (lsArg s (decide (args.length > 1))) emptyRes, s)

/-- One iteration of the `forEach` loop of `Shell.cat`. -/
def catArg (t : FSNode) (cur : FRef) (acc : ShellCommandResult) (arg : String) :
    ShellCommandResult :=
  match findFile t cur (jsSplit arg '/') none with
  | some p =>
    let f := (getNode t p).getD emptyFS
    if f.ftype = "dir" then
      { acc with stdErr := acc.stdErr ++ ["cat: " ++ f.name ++ ": Is a directory"] }
    else { acc with stdOut := acc.stdOut ++ f.contents }
  | none => { acc with stdErr := acc.stdErr ++ ["cat: " ++ arg ++ ": No such file or directory"] }

/-- `Shell.cat`, translated from the source. -/
def cat (s : ShellState) (args : List String) : ShellCommandResult × ShellState :=
  if args = [] then (emptyRes, s)
  else (args.foldl (catArg s.fileStructure s.currentDir) emptyRes, s)

/-- One iteration of the `forEach` loop of `Shell.touch`.  When the text file
already exists the source only refreshes its `lastModified` timestamp, which
is unobservable in scope, so the state is unchanged; otherwise `newFile` runs
and its result is combined in (spec §3: combining concatenates the stdout and
stderr lists). -/
def touchArg (acc : ShellCommandResult × ShellState) (arg : String) :
    ShellCommandResult × ShellState :=
  let path := jsSplit arg '/'
  match findFile acc.2.fileStructure acc.2.currentDir path (some "txt") with
  | some _ => acc
  | none =>
    let (r, s2) := newFile acc.2 path "txt"
    ({ stdOut := acc.1.stdOut ++ r.stdOut, stdErr := acc.1.stdErr ++ r.stdErr, data := acc.1.data }, s2)

/-- `Shell.touch`, translated from the source. -/
def touch (s : ShellState) (args : List String) : ShellCommandResult × ShellState :=
  if args = [] then (emptyRes, s) else args.foldl touchArg (emptyRes, s)

/-- One iteration of the `forEach` loop of `Shell.mkdir`. -/
def mkdirArg (acc : ShellCommandResult × ShellState) (arg : String) :
    ShellCommandResult × ShellState :=
  let path := jsSplit arg '/'
  match findFile acc.2.fileStructure acc.2.currentDir path (some "dir") with
  | some _ => acc
  | none =>
    let (r, s2) := newFile acc.2 path "dir"
    ({ stdOut := acc.1.stdOut ++ r.stdOut, stdErr := acc.1.stdErr ++ r.stdErr, data := acc.1.data }, s2)

/-- `Shell.mkdir`, translated from the source. -/
def mkdir (s : ShellState) (args : List String) : ShellCommandResult × ShellState :=
  if args = [] then (emptyRes, s) else args.foldl mkdirArg (emptyRes, s)

/-- `Shell.echo`. -/
def echo (s : ShellState) (args : List String) : ShellCommandResult × ShellState :=
  ({ emptyRes with stdOut := [strJoin " " args] }, s)

/-- `Shell.vi`, translated from the source.  With no argument the source
evaluates `shellCommand.args[0].split('/')` on `undefined`, a thrown
`TypeError`, modelled as `Except.error .typeErr`. -/
def vi (s : ShellState) (args : List String) : Except JsErr (ShellCommandResult × ShellState) :=
  match args with
  | [] => .error .typeErr
  | a :: _ =>
    let fPath := jsSplit a '/'
    let file := findFile s.fileStructure s.currentDir fPath (some "txt")
    .ok (emptyRes, { s with childProcess := some (fPath, file) })

/-- Dispatch of a validated command name to its handler (the source does this
with `eval`; the mapping is the one `Shell.validCommands` enumerates). -/
def dispatch (s : ShellState) (sc : ShellCommand) : Except JsErr (ShellCommandResult × ShellState) :=
  if sc.command = "clear" then .ok (clear s)
  else if sc.command = "pwd" then .ok (pwd s)
  else if sc.command = "whoami" then .ok (whoami s)
  else if sc.command = "cd" then .ok (cd s sc.args)
  else if sc.command = "ls" then .ok (ls s sc.args)
  else if sc.command = "cat" then .ok (cat s sc.args)
  else if sc.command = "touch" then .ok (touch s sc.args)
  else if sc.command = "mkdir" then .ok (mkdir s sc.args)
  else if sc.command = "echo" then .ok (echo s sc.args)
  else if sc.command = "vi" then vi s sc.args
  else .ok ({ emptyRes with stdErr := [sc.command ++ ": command not found"] }, s)

/-- The tokens after the redirect operator:
`inputString.slice(i + pattern.length).trim().split(' ')`. -/
def afterToks (input pat : String) : List String :=
  jsSplit (jsTrim (afterFirst input pat)) ' '

/-- The re-built inner input line of `Shell.redirect`:
`inputString.slice(0, i) + otherArgs.join(' ')` where `otherArgs` is `[]` for
a single token after the operator and `afterSymbol.slice(pattern.length)`
otherwise (the source slices from index `pattern.length`, not 1). -/
def innerInput (input pat : String) : String :=
  let a := afterToks input pat
  beforeFirst input pat ++ strJoin " " (if a.length = 1 then [] else a.drop (strLen pat))

/-- The second half of `Shell.redirect`, from the source: resolve the target
as a text file with the whole target string as a single path segment, create
it with `newFile` when absent, report `No such file or directory` when
`newFile` returns no file, and otherwise truncate (`>`) or append (`>>`) the
inner result's stdout into its contents, forwarding the inner stderr. -/
def redirectFinish (s1 : ShellState) (res : ShellCommandResult) (pat filepath : String) :
    Except JsErr (ShellCommandResult × ShellState) :=
  let write := fun (f : FSNode) =>
    FSNode.node f.name f.ftype (if pat = ">" then res.stdOut else f.contents ++ res.stdOut) f.children
  match findFile s1.fileStructure s1.currentDir [filepath] (some "txt") with
  | some fp =>
    .ok ({ stdOut := [], stdErr := res.stdErr, data := none },
      { s1 with fileStructure := updateAt write s1.fileStructure fp })
  | none =>
    let (r2, s2) := newFile s1 [filepath] "txt"
    match r2.data with
    | none =>
      .ok ({ stdOut := [], stdErr := ["bash: " ++ filepath ++ ": No such file or directory"], data := none }, s2)
    | some fp =>
      .ok ({ stdOut := [], stdErr := res.stdErr, data := none },
        { s2 with fileStructure := updateAt write s2.fileStructure fp })

/-- `Shell.redirect`, translated from the source; `recur` is the recursive
call back into `Shell.executeCommand` on the re-built inner line. -/
def redirectStep (recur : ShellState → String → Except JsErr (ShellCommandResult × ShellState))
    (s : ShellState) (input pat : String) : Except JsErr (ShellCommandResult × ShellState) :=
  let a := afterToks input pat
  if a.length = 0 then .ok ({ emptyRes with stdErr := ["Syntax error"] }, s)
  else
    match recur s (innerInput input pat) with
    | .error e => .error e
    | .ok (res, s1) => redirectFinish s1 res pat (a.headD "")

/-- `Shell.executeCommand`, translated from the source, with a fuel bound on
the recursion through nested redirects (each recursive call strictly shortens
the line, so any fuel above the line length is enough). -/
def execCmd : Nat → ShellState → String → Except JsErr (ShellCommandResult × ShellState)
  | 0, _, _ => .error .outOfFuel
  | fuel + 1, s, input =>
    if includesStr input ">>" then redirectStep (execCmd fuel) s input ">>"
    else if includesStr input ">" then redirectStep (execCmd fuel) s input ">"
    else
      let sc := parseShellCommand input
      if validCommands.contains sc.command then dispatch s sc
      else .ok ({ emptyRes with stdErr := [sc.command ++ ": command not found"] }, s)

/-- Execute one input line with enough fuel for its nested redirects. -/
def runLine (s : ShellState) (line : String) : Except JsErr (ShellCommandResult × ShellState) :=
  execCmd (strLen line + 1) s line

/-- Execute a sequence of input lines, returning the last line's result
together with the final state. -/
def runLines (s : ShellState) : List String → Except JsErr (ShellCommandResult × ShellState)
  | [] => .ok (emptyRes, s)
  | [l] => runLine s l
  | l :: ls =>
    match runLine s l with
    | .error e => .error e
    | .ok (_, s') => runLines s' ls

/-- Modelled from the spec: `getContentsByTypes` of the `fileobject` module
(not among the sources) returns the children whose type is in the given list,
in stored order (spec §4.1, `listByTypes`). -/
def getContentsByTypes (types : List String) (cs : List FSNode) : List FSNode :=
  cs.filter (fun c => types.contains c.ftype)

/-- `Shell.filterAutoCompleteOptions`, translated from the source. -/
def filterAutoCompleteOptions (frag : String) (options : List String) : List String :=
  options.filter (fun o => strLen o ≥ strLen frag ∧ strTake o (strLen frag) = frag)

/-- `Shell.getAutocompleteFiles`, translated from the source.  When the
directory portion of the partial path does not resolve, the source calls
`dir.getContentsByTypes` on `null`, a thrown `TypeError`. -/
def getAutocompleteFiles (s : ShellState) (frag : String) (filetypes : List String) :
    Except JsErr (List String) :=
  let parts := jsSplit frag '/'
  let fragName := parts.getLastD ""
  let dirPath := parts.dropLast
  match findFile s.fileStructure s.currentDir dirPath (some "dir") with
  | none => .error .typeErr
  | some dp =>
    let d := (getNode s.fileStructure dp).getD emptyFS
    let options := (getContentsByTypes filetypes d.children).map
      (fun f => f.name ++ (if f.ftype = "dir" then "/" else ""))
    .ok (filterAutoCompleteOptions fragName options)

/-- `Shell.printAutoCompleteOptions`, translated from the source: with the
flag armed, print the prompt line and the candidates inline (the flag is left
armed); otherwise only arm the flag. -/
def printAutoCompleteOptions (s : ShellState) (options : List String) : ShellState :=
  if s.tabPressed then
    { s with output := s.output ++ [.line (getPS1String s ++ s.inputString), .inline options] }
  else { s with tabPressed := true }

/-- `Shell.executeAutoComplete`, translated from the source: append to the
buffer the candidate's suffix beyond the final path segment already typed. -/
def executeAutoComplete (s : ShellState) (frag complete : String) : ShellState :=
  let wordFrag := (jsSplit frag '/').getLastD ""
  { s with inputString := s.inputString ++ strDrop complete (strLen wordFrag) }

/-- `Shell.handleTab`, translated from the source: pick the completion
context, compute the candidates, then complete a unique candidate or hand
multiple candidates to `printAutoCompleteOptions`. -/
def handleTab (s : ShellState) : Except JsErr ShellState :=
  let spaceAtEnd := s.inputString.data.getLastD 'x' = ' '
  let cmd := parseShellCommand s.inputString
  let picked : Except JsErr (String × List String) :=
    if cmd.command = "" then .ok ("", validCommands)
    else if ¬spaceAtEnd ∧ cmd.args = [] then
      .ok (cmd.command, filterAutoCompleteOptions cmd.command validCommands)
    else
      let frag := cmd.args.getLastD ""
      match getAutocompleteFiles s frag (getValidTypes cmd.command) with
      | .error e => .error e
      | .ok opts =>
        if opts = [] then
          match getAutocompleteFiles s frag ["dir"] with
          | .error e => .error e
          | .ok opts2 => .ok (frag, opts2)
        else .ok (frag, opts)
  match picked with
  | .error e => .error e
  | .ok (frag, options) =>
    if options.length = 1 then .ok (executeAutoComplete s frag (options.headD ""))
    else if options.length > 1 then .ok (printAutoCompleteOptions s options)
    else .ok s

/-- Replace the first space by `&nbsp;`, as
`inputString.replace(' ', '&nbsp;')` does (a string pattern replaces only the
first occurrence). -/
def replaceFirstSpace (s : String) : String :=
  match splitAtSub [' '] s.data with
  | none => s
  | some (a, b) => (⟨a⟩ : String) ++ "&nbsp;" ++ (⟨b⟩ : String)

/-- Modelled from the spec: `ShellCommandResult.getDefaultOutput` (not among
the sources) renders the result's stdout and stderr lines for display. -/
def getDefaultOutput (r : ShellCommandResult) : String :=
  strJoin "\n" (r.stdOut ++ r.stdErr)

/-- `Shell.handleEnter`, translated from the source: a blank line prints a
bare prompt; otherwise the prompt plus the line is printed, the line is
appended to history and executed, and the rendered result is printed; in both
cases the buffer is cleared and the history cursor reset to the history
length. -/
def handleEnter (s : ShellState) : Except JsErr ShellState :=
  if ¬s.inputString.data.any (fun c => c ≠ ' ') then
    .ok { s with output := s.output ++ [.line (getPS1String s)], inputString := ""
                 historyIndex := s.bashHistory.length }
  else
    let s1 := { s with
      output := s.output ++ [.line (getPS1String s ++ replaceFirstSpace s.inputString)]
      bashHistory := s.bashHistory ++ [s.inputString] }
    match execCmd (strLen s1.inputString + 1) s1 s1.inputString with
    | .error e => .error e
    | .ok (res, s2) =>
      .ok { s2 with output := s2.output ++ [.line (getDefaultOutput res)], inputString := ""
                    historyIndex := s2.bashHistory.length }

/-- A normalized keystroke delivered to `Shell.shellKeystroke` (enter,
backspace, the arrows, tab, or a printable character). -/
inductive KeyEvent where
  | enter
  | backspace
  | up
  | down
  | tab
  | char (c : Char)
deriving DecidableEq

/-- `Shell.shellKeystroke`, translated from the source.  An up or down arrow
whose guard fails falls into the final branch of the source's `else if`
chain, where `getChar` yields no printable character for an arrow key
(modelled from the spec's normalized key events), so only the tab flag is
cleared. -/
def shellKeystroke (s : ShellState) (e : KeyEvent) : Except JsErr ShellState :=
  match e with
  | .enter => handleEnter { s with tabPressed := false }
  | .backspace =>
    .ok { s with tabPressed := false, inputString := dropLastChar s.inputString }
  | .up =>
    if s.historyIndex > 0 then
      .ok { s with tabPressed := false, historyIndex := s.historyIndex - 1
                   inputString := s.bashHistory.getD (s.historyIndex - 1) "" }
    else .ok { s with tabPressed := false }
  | .down =>
    if s.historyIndex < s.bashHistory.length then
      .ok { s with tabPressed := false, historyIndex := s.historyIndex + 1
                   inputString :=
                     if s.historyIndex + 1 = s.bashHistory.length then ""
                     else s.bashHistory.getD (s.historyIndex + 1) "" }
    else .ok { s with tabPressed := false }
  | .tab => handleTab s
  | .char c =>
    .ok { s with tabPressed := false, inputString := s.inputString ++ c.toString }

/-- A root holding a single directory `a` (used as a concrete session below). -/
def aFS : FSNode := .node "" "dir" [] [.node "a" "dir" [] []]

/-- A fresh shell over `aFS`. -/
def aShell : ShellState := { initShell with fileStructure := aFS }

/-- A root holding a directory `a` that holds a directory `b`. -/
def abFS : FSNode := .node "" "dir" [] [.node "a" "dir" [] [.node "b" "dir" [] []]]

/-- A fresh shell over `abFS`. -/
def abShell : ShellState := { initShell with fileStructure := abFS }

/-- A fresh shell whose pending tab-display flag is armed. -/
def sPend : ShellState := { initShell with tabPressed := true }

/- Helper lemmas (shared; none is a claim's theorem). -/

theorem findFile_single (t : FSNode) (cur : FRef) (seg : String) (rty : Option String)
    (h : ¬(seg = "" ∧ rty = some "dir")) :
    findFile t cur [seg] rty = claimStep t cur seg rty := by
  unfold findFile
  rw [if_neg]
  · rfl
  · simpa using h

theorem findFile_single_empty (t : FSNode) (cur : FRef) :
    findFile t cur [""] (some "dir") = some cur := by
  unfold findFile
  rw [if_pos]
  simp

theorem findFile_cons (t : FSNode) (cur : FRef) (seg s2 : String) (r : List String)
    (rty : Option String) :
    findFile t cur (seg :: s2 :: r) rty =
      match claimStep t cur seg (some "dir") with
      | none => none
      | some p => findFile t p (s2 :: r) rty := by
  unfold findFile
  rw [if_neg]
  · rfl
  · simp

theorem findFile_dotdot (t : FSNode) (p : FRef) :
    findFile t p [".."] (some "dir") = some p.dropLast := by
  unfold findFile
  rw [if_neg]
  · rfl
  · simp

theorem cd_single (s : ShellState) (nm : String) :
    cd s [nm] =
      match findFile s.fileStructure s.currentDir (jsSplit nm '/') (some "dir") with
      | some p => (emptyRes, { s with currentDir := p })
      | none => ({ emptyRes with stdErr := [nm ++ ": directory not found"] }, s) := by
  rfl

theorem splitChar_ne_nil (sep : Char) (l : List Char) : splitChar sep l ≠ [] := by
  induction l with
  | nil => simp [splitChar]
  | cons c cs ih =>
    unfold splitChar
    split
    · simp
    · split <;> simp

theorem jsSplit_ne_nil (s : String) (sep : Char) : jsSplit s sep ≠ [] := by
  unfold jsSplit
  intro h
  rw [List.map_eq_nil_iff] at h
  exact splitChar_ne_nil sep s.data h

theorem afterToks_len (input pat : String) : (afterToks input pat).length ≠ 0 := by
  intro h
  rw [List.length_eq_zero] at h
  exact jsSplit_ne_nil _ _ h

theorem newFile_tab (s : ShellState) (fp : List String) (ft : String) :
    ((newFile s fp ft).2).tabPressed = s.tabPressed := by
  simp only [newFile]
  split <;> rfl

theorem touchArg_tab (acc : ShellCommandResult × ShellState) (arg : String) :
    ((touchArg acc arg).2).tabPressed = (acc.2).tabPressed := by
  simp only [touchArg]
  split
  · rfl
  · rcases hnw : newFile acc.2 (jsSplit arg '/') "txt" with ⟨r0, s0⟩
    simp only [hnw]
    have hh := newFile_tab acc.2 (jsSplit arg '/') "txt"
    rw [hnw] at hh
    exact hh

theorem mkdirArg_tab (acc : ShellCommandResult × ShellState) (arg : String) :
    ((mkdirArg acc arg).2).tabPressed = (acc.2).tabPressed := by
  simp only [mkdirArg]
  split
  · rfl
  · rcases hnw : newFile acc.2 (jsSplit arg '/') "dir" with ⟨r0, s0⟩
    simp only [hnw]
    have hh := newFile_tab acc.2 (jsSplit arg '/') "dir"
    rw [hnw] at hh
    exact hh

theorem touchFold_tab (args : List String) :
    ∀ acc : ShellCommandResult × ShellState,
      ((args.foldl touchArg acc).2).tabPressed = (acc.2).tabPressed := by
  induction args with
  | nil => intro acc; rfl
  | cons a rest ih =>
    intro acc
    simp only [List.foldl_cons]
    rw [ih (touchArg acc a), touchArg_tab]

theorem mkdirFold_tab (args : List String) :
    ∀ acc : ShellCommandResult × ShellState,
      ((args.foldl mkdirArg acc).2).tabPressed = (acc.2).tabPressed := by
  induction args with
  | nil => intro acc; rfl
  | cons a rest ih =>
    intro acc
    simp only [List.foldl_cons]
    rw [ih (mkdirArg acc a), mkdirArg_tab]

theorem cd_tab (s : ShellState) (args : List String) :
    ((cd s args).2).tabPressed = s.tabPressed := by
  simp only [cd]
  split <;> rfl

theorem ls_tab (s : ShellState) (args : List String) :
    ((ls s args).2).tabPressed = s.tabPressed := by
  simp only [ls]
  split <;> rfl

theorem cat_tab (s : ShellState) (args : List String) :
    ((cat s args).2).tabPressed = s.tabPressed := by
  simp only [cat]
  split <;> rfl

theorem touch_tab (s : ShellState) (args : List String) :
    ((touch s args).2).tabPressed = s.tabPressed := by
  simp only [touch]
  split
  · rfl
  · exact touchFold_tab args (emptyRes, s)

theorem mkdir_tab (s : ShellState) (args : List String) :
    ((mkdir s args).2).tabPressed = s.tabPressed := by
  simp only [mkdir]
  split
  · rfl
  · exact mkdirFold_tab args (emptyRes, s)

theorem okSnd {α β ε : Type} {p : α × β} {r : α} {s' : β}
    (h : (Except.ok p : Except ε (α × β)) = .ok (r, s')) : s' = p.2 := by
  injection h with h2
  exact (congrArg Prod.snd h2).symm

theorem okId {ε α : Type} {x : α} {y : α} (h : (Except.ok x : Except ε α) = .ok y) : y = x := by
  injection h with h2
  exact h2.symm

set_option maxHeartbeats 1000000 in
theorem dispatch_tab (s : ShellState) (sc : ShellCommand) (r : ShellCommandResult)
    (s' : ShellState) (h : dispatch s sc = .ok (r, s')) : s'.tabPressed = s.tabPressed := by
  unfold dispatch at h
  split_ifs at h
  · rw [okSnd h]; rfl
  · rw [okSnd h]; rfl
  · rw [okSnd h]; rfl
  · rw [okSnd h]; exact cd_tab s sc.args
  · rw [okSnd h]; exact ls_tab s sc.args
  · rw [okSnd h]; exact cat_tab s sc.args
  · rw [okSnd h]; exact touch_tab s sc.args
  · rw [okSnd h]; exact mkdir_tab s sc.args
  · rw [okSnd h]; rfl
  · unfold vi at h
    split at h
    · simp at h
    · rw [okSnd h]
  · rw [okSnd h]

theorem redirectFinish_tab (s1 : ShellState) (res : ShellCommandResult) (pat fp : String)
    (r : ShellCommandResult) (s' : ShellState)
    (h : redirectFinish s1 res pat fp = .ok (r, s')) : s'.tabPressed = s1.tabPressed := by
  simp only [redirectFinish] at h
  split at h
  · rw [okSnd h]
  · rcases hnw : newFile s1 [fp] "txt" with ⟨r2, s2⟩
    have hh := newFile_tab s1 [fp] "txt"
    rw [hnw] at hh
    simp only [hnw] at h
    split at h
    · rw [okSnd h]; exact hh
    · rw [okSnd h]; exact hh

theorem redirectStep_tab
    (recur : ShellState → String → Except JsErr (ShellCommandResult × ShellState))
    (hrec : ∀ s inp r s', recur s inp = .ok (r, s') → s'.tabPressed = s.tabPressed)
    (s : ShellState) (input pat : String) (r : ShellCommandResult) (s' : ShellState)
    (h : redirectStep recur s input pat = .ok (r, s')) : s'.tabPressed = s.tabPressed := by
  simp only [redirectStep] at h
  split at h
  · rw [okSnd h]
  · split at h
    · exact absurd h (by simp)
    · rename_i res s1 heq
      rw [redirectFinish_tab s1 res pat _ r s' h]
      exact hrec s _ res s1 heq

theorem exec_tab : ∀ (fuel : Nat) (s : ShellState) (input : String) (r : ShellCommandResult)
    (s' : ShellState), execCmd fuel s input = .ok (r, s') → s'.tabPressed = s.tabPressed := by
  intro fuel
  induction fuel with
  | zero => intro s input r s' h; exact absurd h (by simp [execCmd])
  | succ n ih =>
    intro s input r s' h
    simp only [execCmd] at h
    split_ifs at h
    · exact redirectStep_tab (execCmd n) (fun a b c d hh => ih a b c d hh) s input ">>" r s' h
    · exact redirectStep_tab (execCmd n) (fun a b c d hh => ih a b c d hh) s input ">" r s' h
    · exact dispatch_tab s _ r s' h
    · rw [okSnd h]

theorem handleEnter_tab (s : ShellState) (s' : ShellState)
    (h : handleEnter s = .ok s') : s'.tabPressed = s.tabPressed := by
  simp only [handleEnter] at h
  split at h
  · rw [okId h]
  · split at h
    · exact absurd h (by simp)
    · rename_i res s2 heq
      rw [okId h]
      show s2.tabPressed = s.tabPressed
      rw [exec_tab _ _ _ res s2 heq]

/- Claim theorems. -/

/-- Claim C1, counterexample: on the non-empty segment list `[""]` with
`requiredType = "dir"`, the claim's resolver (`resolveClaim`, which sends a
non-special segment to the child of exact matching name and fails when there
is none) returns `none` on an empty root, but `Shell.findFile` returns the
starting directory itself: the claim omits the empty-final-segment clause. -/
theorem c1_counterexample :
    findFile emptyFS [] [""] (some "dir") = some [] ∧
      resolveClaim emptyFS [] [""] (some "dir") = none :=
  ⟨rfl, rfl⟩

/-- Claim C1 as amended: for every starting directory and every non-empty
segment list, `Shell.findFile` coincides with the claim's resolver
(`.` to the start, `..` to the parent, `~` to the root, other segments to the
child of exact matching name, the `requiredType` filter only on a final
segment, intermediate named segments restricted to directories, and `none` —
never an exception — as soon as a hop fails) extended with the one clause the
code adds: a final empty segment with `requiredType = "dir"` resolves to the
current directory itself. -/
theorem c1_theorem (fp : List String) :
    ∀ (t : FSNode) (cur : FRef) (rty : Option String), fp ≠ [] →
      findFile t cur fp rty = resolveAmended t cur fp rty := by
  induction fp with
  | nil => intro t cur rty h; exact absurd rfl h
  | cons seg rest ih =>
    intro t cur rty _
    cases rest with
    | nil =>
      by_cases hs : seg = "" ∧ rty = some "dir"
      · obtain ⟨h1, h2⟩ := hs
        subst h1; subst h2
        rw [findFile_single_empty]
        simp [resolveAmended]
      · rw [findFile_single t cur seg rty hs]
        unfold resolveAmended
        rw [if_neg hs]
    | cons s2 r =>
      rw [findFile_cons]
      cases hc : claimStep t cur seg (some "dir") with
      | none => simp [resolveAmended, hc]
      | some p =>
        simp only [resolveAmended, hc]
        exact ih t p rty (by simp)

/-- Claim C1, witness: the amended equivalence evaluated on the concrete
segment list `["a"]`. -/
theorem c1_witness :
    (["a"] : List String) ≠ [] ∧
      findFile emptyFS [] ["a"] none = resolveAmended emptyFS [] ["a"] none :=
  ⟨by decide, c1_theorem ["a"] emptyFS [] none (by decide)⟩

/-- Claim C2: `echo hi > f.txt` then `cat f.txt` yields stdOut `["hi"]`, and
continuing with `echo bye >> f.txt` then `cat f.txt` yields
`["hi", "bye"]` — `>` replaces the target text file's contents with the inner
command's stdOut, `>>` appends to them. -/
theorem c2_theorem :
    (runLines initShell ["echo hi > f.txt", "cat f.txt"]).map (fun p => p.1.stdOut) =
        .ok ["hi"] ∧
      (runLines initShell
          ["echo hi > f.txt", "cat f.txt", "echo bye >> f.txt", "cat f.txt"]).map
          (fun p => p.1.stdOut) =
        .ok ["hi", "bye"] :=
  ⟨rfl, rfl⟩

/-- Claim C3 is violated by the code: for `>>` the source slices the token
list after the operator from index `pattern.length = 2`, dropping the first
token after the target instead of appending every following token back.  On
`echo a >> f x y` the rebuilt inner line is `echo a y` (not `echo a x y`), so
`f` receives `["a y"]`; the outer result still forwards the (empty) inner
stderr. -/
theorem c3_theorem :
    innerInput "echo a >> f x y" ">>" = "echo a y" ∧
      (runLine initShell "echo a >> f x y").map
          (fun p => (p.1.stdErr, p.2.fileStructure.children.map (fun c => (c.name, c.contents)))) =
        .ok ([], [("f", ["a y"])]) :=
  ⟨rfl, rfl⟩

/-- Claim C4 is violated by the code: the redirect passes the whole target as
a one-element path, so `newFile` always appends the new node to the current
directory and never fails; on `echo hi > nodir/f.txt` a text file literally
named `nodir/f.txt` is created in the current directory with the inner stdOut
as contents and empty stderr, instead of the claimed
`No such file or directory` error.  The second conjunct shows the error
branch is unreachable: `newFile` on a one-element path always returns a file
reference. -/
theorem c4_theorem :
    (runLine initShell "echo hi > nodir/f.txt").map
        (fun p => (p.1.stdErr, p.2.fileStructure.children.map (fun c => (c.name, c.ftype, c.contents)))) =
      .ok ([], [("nodir/f.txt", "txt", ["hi"])]) ∧
    ∀ (s : ShellState) (fpath : String), ((newFile s [fpath] "txt").1).data.isSome = true := by
  refine ⟨rfl, ?_⟩
  intro s fpath
  rfl

/-- Claim C5 is violated by the code: the guard
`!afterSymbol || afterSymbol.length === 0` never fires because JavaScript
`''.split(' ')` is `['']` (second conjunct: the token list after the operator
is never empty).  On `echo hi >` there is no `SyntaxError`; instead a text
file whose name is the empty string is created in the current directory,
holding the inner stdOut. -/
theorem c5_theorem :
    (runLine initShell "echo hi >").map
        (fun p => (p.1.stdErr, p.2.fileStructure.children.map (fun c => (c.name, c.contents)))) =
      .ok ([], [("", ["hi"])]) ∧
    ∀ input pat : String, 0 < (afterToks input pat).length := by
  refine ⟨rfl, ?_⟩
  intro input pat
  exact Nat.pos_of_ne_zero (afterToks_len input pat)

/-- Claim C6, counterexample: sibling-name uniqueness does not hold across
node types — `touch a` then `mkdir a` leaves two siblings named `a` (a text
file and a directory) under the root. -/
theorem c6_counterexample :
    (runLines initShell ["touch a", "mkdir a"]).map
        (fun p => p.2.fileStructure.children.map (fun c => (c.name, c.ftype))) =
      .ok [("a", "txt"), ("a", "dir")] :=
  rfl

/-- Claim C6 as amended: repeating the same creation command creates no
duplicate — `mkdir a` twice leaves exactly one child named `a` (a directory)
under the current directory, and `touch x` twice leaves exactly one child
named `x` (a text file). -/
theorem c6_theorem :
    (runLines initShell ["mkdir a", "mkdir a"]).map
        (fun p => p.2.fileStructure.children.map (fun c => (c.name, c.ftype))) =
      .ok [("a", "dir")] ∧
    (runLines initShell ["touch x", "touch x"]).map
        (fun p => p.2.fileStructure.children.map (fun c => (c.name, c.ftype))) =
      .ok [("x", "txt")] :=
  ⟨rfl, rfl⟩

/-- Claim C7, counterexample: `b` is a directory reachable from the current
directory (the root of `abShell`), but `cd a/b` followed by `cd ..` leaves
the session in `a` (reference `[0]`), not back at the root (`[]`): `cd` into
a non-child directory followed by `cd ..` does not restore the prior
current-directory reference. -/
theorem c7_counterexample :
    abShell.currentDir = [] ∧
      (runLines abShell ["cd a/b", "cd .."]).map (fun p => p.2.currentDir) = .ok [0] :=
  ⟨rfl, rfl⟩

/-- Claim C7 as amended: for a directory that is a direct child of the
current directory (a plain single-segment name resolving to a child), `cd`
into it followed by `cd ..` restores the previous current-directory
reference; and at the root `..` resolves to the root itself, so `cd ..`
succeeds (no stderr) and leaves the current directory at the root.  The
root's parent is spec-modelled (spec §9) as the root itself. -/
theorem c7_theorem :
    (∀ (s : ShellState) (nm : String) (i : Nat),
        jsSplit nm '/' = [nm] →
        findFile s.fileStructure s.currentDir [nm] (some "dir") = some (s.currentDir ++ [i]) →
        (cd (cd s [nm]).2 [".."]).2.currentDir = s.currentDir ∧
          (cd (cd s [nm]).2 [".."]).1.stdErr = [])
    ∧ (∀ s : ShellState, s.currentDir = [] →
        (cd s [".."]).2.currentDir = [] ∧ (cd s [".."]).1.stdErr = []) := by
  constructor
  · intro s nm i h1 h2
    have hcd : (cd s [nm]).2 = { s with currentDir := s.currentDir ++ [i] } := by
      rw [cd_single, h1, h2]
    rw [hcd, cd_single]
    have hdd : jsSplit ".." '/' = [".."] := by rfl
    rw [hdd, findFile_dotdot]
    constructor
    · show ({ s with currentDir := s.currentDir ++ [i] } : ShellState).currentDir.dropLast = s.currentDir
      simp
    · rfl
  · intro s hroot
    rw [cd_single]
    have hdd : jsSplit ".." '/' = [".."] := by rfl
    rw [hdd, findFile_dotdot, hroot]
    exact ⟨rfl, rfl⟩

/-- Claim C7, witness: the amended round trip evaluated on a concrete session
whose root has one child directory `a`, and the root clause on the fresh
shell. -/
theorem c7_witness :
    (jsSplit "a" '/' = ["a"] ∧
      findFile aShell.fileStructure aShell.currentDir ["a"] (some "dir") =
        some (aShell.currentDir ++ [0]) ∧
      (cd (cd aShell ["a"]).2 [".."]).2.currentDir = aShell.currentDir ∧
      (cd (cd aShell ["a"]).2 [".."]).1.stdErr = []) ∧
    (initShell.currentDir = [] ∧
      (cd initShell [".."]).2.currentDir = [] ∧ (cd initShell [".."]).1.stdErr = []) :=
  ⟨⟨rfl, rfl, c7_theorem.1 aShell "a" 0 rfl rfl⟩,
    rfl, c7_theorem.2 initShell rfl⟩

/-- Claim C8 is violated by the code: executing the line `vi` (no argument)
evaluates `shellCommand.args[0].split('/')` on `undefined`, and a tab
completion with buffer `cat zzz/x` over an empty filesystem calls
`getContentsByTypes` on the `null` returned by `findFile` — both are thrown
`TypeError`s escaping the handler, not stderr lines in a `CommandResult`. -/
theorem c8_theorem :
    runLine initShell "vi" = .error .typeErr ∧
      shellKeystroke { initShell with inputString := "cat zzz/x" } .tab = .error .typeErr :=
  ⟨rfl, rfl⟩

/-- Claim C9, counterexample: after two consecutive tab presses on a fresh
shell (ten command-name candidates), the second press prints the prompt line
and the candidate list (two output events) but the pending-display flag is
still armed — the claimed reset does not happen. -/
theorem c9_counterexample :
    ((shellKeystroke initShell .tab).bind (fun s1 => shellKeystroke s1 .tab)).map
        (fun s => (s.tabPressed, s.output.length)) =
      .ok (true, 2) :=
  rfl

/-- Claim C9 as amended: with multiple candidates, a tab press with the
pending flag clear only arms the flag and prints nothing; a press with the
flag armed prints the prompt line plus all candidates inline and leaves the
flag armed (it is not reset, so every further consecutive tab prints again);
any non-tab keystroke that completes leaves the flag cleared; and a unique
candidate appends to the buffer only the suffix beyond the already-typed
final path segment. -/
theorem c9_theorem :
    (∀ (s : ShellState) (opts : List String), s.tabPressed = false →
        printAutoCompleteOptions s opts = { s with tabPressed := true }) ∧
    (∀ (s : ShellState) (opts : List String), s.tabPressed = true →
        printAutoCompleteOptions s opts =
          { s with output := s.output ++ [.line (getPS1String s ++ s.inputString), .inline opts] }) ∧
    (∀ (s : ShellState) (e : KeyEvent) (s' : ShellState), e ≠ KeyEvent.tab →
        shellKeystroke s e = .ok s' → s'.tabPressed = false) ∧
    (∀ (s : ShellState) (frag complete : String),
        executeAutoComplete s frag complete =
          { s with inputString :=
              s.inputString ++ strDrop complete (strLen ((jsSplit frag '/').getLastD "")) }) := by
  refine ⟨?_, ?_, ?_, ?_⟩
  · intro s opts h
    simp only [printAutoCompleteOptions, h, Bool.false_eq_true, if_false]
  · intro s opts h
    simp only [printAutoCompleteOptions, h, if_true]
  · intro s e s' hne h
    cases e with
    | enter =>
      have hh := handleEnter_tab { s with tabPressed := false } s' h
      simpa using hh
    | backspace => rw [okId h]
    | up =>
      simp only [shellKeystroke] at h
      split at h <;> rw [okId h]
    | down =>
      simp only [shellKeystroke] at h
      split at h <;> rw [okId h]
    | tab => exact absurd rfl hne
    | char c => rw [okId h]
  · intro s frag complete
    rfl

/-- Claim C9, witness: the amended tab behavior evaluated on concrete states
(`sPend` is the fresh shell with the flag armed). -/
theorem c9_witness :
    printAutoCompleteOptions initShell ["pwd", "ls"] = { initShell with tabPressed := true } ∧
    printAutoCompleteOptions sPend ["pwd", "ls"] =
      { sPend with output :=
          sPend.output ++ [.line (getPS1String sPend ++ sPend.inputString), .inline ["pwd", "ls"]] } ∧
    ({ initShell with inputString := "a" } : ShellState).tabPressed = false ∧
    executeAutoComplete initShell "p" "pwdx" =
      { initShell with inputString :=
          initShell.inputString ++ strDrop "pwdx" (strLen ((jsSplit "p" '/').getLastD "")) } :=
  ⟨c9_theorem.1 initShell ["pwd", "ls"] rfl,
    c9_theorem.2.1 sPend ["pwd", "ls"] rfl,
    c9_theorem.2.2.1 initShell (.char 'a') { initShell with inputString := "a" } (by decide) rfl,
    c9_theorem.2.2.2 initShell "p" "pwdx"⟩

/-- Claim C10: on a line containing a redirect operator (`>>` taking
precedence), `executeCommand` factors as exactly one execution of the
rebuilt inner line on the pre-redirect state, followed by the target phase
(`redirectFinish`, which resolves or creates the target and writes the inner
stdOut) on the inner command's resulting state — so the inner command runs
exactly once, before the target is resolved or created, and all its state
effects persist into the final state. -/
theorem c10_theorem (fuel : Nat) (s : ShellState) (input : String) :
    (includesStr input ">>" = true →
      execCmd (fuel + 1) s input =
        match execCmd fuel s (innerInput input ">>") with
        | .error e => .error e
        | .ok (res, s1) => redirectFinish s1 res ">>" ((afterToks input ">>").headD ""))
    ∧ (includesStr input ">>" = false → includesStr input ">" = true →
      execCmd (fuel + 1) s input =
        match execCmd fuel s (innerInput input ">") with
        | .error e => .error e
        | .ok (res, s1) => redirectFinish s1 res ">" ((afterToks input ">").headD "")) := by
  constructor
  · intro h
    simp only [execCmd, h, if_true]
    simp only [redirectStep, afterToks_len input ">>", if_false]
  · intro h1 h2
    simp only [execCmd, h1, h2, if_true, if_false, Bool.false_eq_true]
    simp only [redirectStep, afterToks_len input ">", if_false]

/-- Claim C10, witness: the factoring evaluated on the concrete line
`touch f > f` (whose inner command itself creates the redirect target, so the
target phase finds the file the inner command just made). -/
theorem c10_witness :
    includesStr "touch f > f" ">>" = false ∧
    includesStr "touch f > f" ">" = true ∧
    execCmd 20 initShell "touch f > f" =
      (match execCmd 19 initShell (innerInput "touch f > f" ">") with
        | .error e => .error e
        | .ok (res, s1) => redirectFinish s1 res ">" ((afterToks "touch f > f" ">").headD "")) :=
  ⟨by decide, by decide,
    (c10_theorem 19 initShell "touch f > f").2 (by decide) (by decide)⟩

end WTerm
